import Mathlib

/-!
# Verification of the go-seele block downloader (`seele/download/downloader.go`)

This file gives a shallow embedding of the downloader session coordinator:
the `Synchronise` entry point, the `doSynchronise` session body, ancestor
discovery (`findCommonAncestorHeight`), peer registration, the peer worker
postlude, and the block writer loop (`processBlocks`).  Concurrency is
modelled by making the environment explicit: peer responses become lists of
message outcomes, the chain store becomes a lookup function, and the
cancellation channel becomes an explicit tri-state value.
-/

deriving instance DecidableEq for Except

namespace Downloader

/-- `MaxBlockFetch = 128`: amount of blocks fetched per retrieval request. -/
def MaxBlockFetch : Nat := 128

/-- `MaxHeaderFetch = 256`: amount of block headers fetched per retrieval request. -/
def MaxHeaderFetch : Nat := 256

/-- `MaxForkAncestry = 90000`: maximum chain reorganisation. -/
def MaxForkAncestry : Nat := 90000

/-- `statusNone = 1`: no sync session. -/
def statusNone : Nat := 1

/-- `statusPreparing = 2`: sync session is preparing. -/
def statusPreparing : Nat := 2

/-- `statusFetching = 3`: sync session is downloading. -/
def statusFetching : Nat := 3

/-- `statusCleaning = 4`: sync session is cleaning. -/
def statusCleaning : Nat := 4

/-- The error values of `downloader.go` (the `var (...)` block of `errors.New`
values), together with the error shapes that reach the downloader from its
collaborators: store lookup errors (`GetBlockHash`), deserialization errors
and transport errors (`waitMsg` returning on cancellation or peer quit). -/
inductive DlErr where
  | hashNotMatch
  | invalidAncestor
  | invalidPacketRecved
  | isSynchronising
  | maxForkAncestor
  | peerNotFound
  | syncErr
  | cancelled
  | peerGone
  | deserializeErr
  | storeErr (code : Nat)
  deriving DecidableEq, Repr

/-- The three session lifecycle events fired on the event bus. -/
inductive DlEvent where
  | downloaderStart
  | downloaderDone
  | downloaderFailed
  deriving DecidableEq, Repr

/-- Block hashes, modelled as natural numbers; the engine only compares them. -/
abbrev Hash := Nat

/-- A block header as the downloader observes it: a height and the value of
`Hash()` on the header. -/
structure Header where
  height : Nat
  hash : Hash
  deriving DecidableEq, Repr

/-- A peer handle as the downloader observes it: the total difficulty
reported by `peer.Head()`.  Modelled as an integer (`*big.Int` in the code). -/
structure PeerC where
  td : Int
  deriving DecidableEq, Repr

/-! ## Peer table (`RegisterPeer` / `UnRegisterPeer`)

The peer table `d.peers` is a Go map `peerID => *peerConn`; we model it
extensionally as a function from identifiers to optional entries. -/

/-- The peer table, `d.peers`. -/
def PeerTable := String → Option PeerC

/-- `RegisterPeer` effect on the peer table: `d.peers[peerID] = newConn`
(map assignment, overwriting any existing entry). -/
def registerPeerTable (tbl : PeerTable) (peerID : String) (p : PeerC) : PeerTable :=
  fun k => if k = peerID then some p else tbl k

/-- `UnRegisterPeer` effect on the peer table: if `peerID` is present, close
the connection and `delete(d.peers, peerID)`; otherwise nothing happens. -/
def unRegisterPeerTable (tbl : PeerTable) (peerID : String) : PeerTable :=
  match tbl peerID with
  | some _ => fun k => if k = peerID then none else tbl k
  | none => tbl

/-! ## Cancellation channel (`d.cancelCh`, `Cancel`)

`none` models a nil channel, `some true` an open channel, `some false` a
closed one. -/

/-- The cancellation channel state. -/
abbrev CancelCh := Option Bool

/-- `Cancel()`: if the channel is non-nil and not yet closed, close it;
otherwise (nil, or already closed via the `select` default) do nothing. -/
def cancelOp (c : CancelCh) : CancelCh :=
  match c with
  | none => none
  | some _ => some false

/-! ## `processBlocks`

`processBlocks` walks the delivered run in order; `WriteBlock` errors other
than `core.ErrBlockAlreadyExist` cancel the session and `break`, anything
else lets the slot be marked `taskStatusProcessed`.  A block is modelled by
its height; the chain writer by a function from heights to write results. -/

/-- Result of `d.chain.WriteBlock`. -/
inductive WriteRes where
  | ok
  | alreadyExists
  | err (code : Nat)
  deriving DecidableEq, Repr

/-- One run of `processBlocks`, returning the heights whose write was
attempted, the heights marked `taskStatusProcessed`, and whether
`d.Cancel()` was invoked. -/
def processBlocks (write : Nat → WriteRes) : List Nat → List Nat × List Nat × Bool
  | [] => ([], [], false)
  | h :: rest =>
    match write h with
    | .err _ =>
      ([h], [], true)
    | _ =>
      let (w, p, c) := processBlocks write rest
      (h :: w, h :: p, c)

/-! ## Ancestor discovery (`findCommonAncestorHeight`)

The master's responses to the reverse header requests are given as a list of
message outcomes: each element is either a transport/deserialization error
(`waitMsg` or `common.Deserialize` failing) or a decoded header batch.  An
exhausted list models a `waitMsg` that never receives a message and is
released by session cancellation.  The local store's `GetBlockHash` is a
function from heights to hash lookups.  Go `int` arithmetic on
`maxFetchAncestry - cmpCount` is kept in `Int` (it may go negative when a
peer over-delivers), and the `uint64` subtraction `top - uint64(cmpCount)`
wraps modulo `2^64`. -/

/-- The inner scan of a header batch (lines 237–246): walk the batch in
order; a `GetBlockHash` failure aborts with that error, a hash match returns
that height, otherwise continue; `none` when the batch is exhausted without
a verdict. -/
def findAncestorInBatch (gbh : Nat → Except DlErr Hash) : List Header → Option (Except DlErr Nat)
  | [] => none
  | h :: rest =>
    match gbh h.height with
    | .error e => some (.error e)
    | .ok localHash =>
      if localHash = h.hash then some (.ok h.height) else findAncestorInBatch gbh rest

/-- The `fetchCount` computed at the head of each walk iteration (lines
209–214): Go `int` arithmetic, so the value may go negative when a peer
delivered more headers than requested. -/
def fetchCountAt (maxFetchAncestry cmpCount : Nat) : Int :=
  if (MaxHeaderFetch : Int) ≤ (maxFetchAncestry : Int) - (cmpCount : Int) then
    (MaxHeaderFetch : Int)
  else (maxFetchAncestry : Int) - (cmpCount : Int)

/-- The `localTop := top - uint64(cmpCount)` of line 208, with `uint64`
wraparound. -/
def localTopAt (top cmpCount : Nat) : Nat :=
  (((top : Int) - (cmpCount : Int)) % (2 ^ 64)).toNat

/-- The ancestor walk loop (lines 206–247), returning the result together
with the reverse header requests issued, each as
`(localTop, fetchCount)` for `RequestHeadersByHashOrNumber(EmptyHash,
localTop, fetchCount, reverse = true)`. -/
def ancestorLoop (gbh : Nat → Except DlErr Hash) (top maxFetchAncestry : Nat) :
    Nat → List (Except DlErr (List Header)) → Except DlErr Nat × List (Nat × Int)
  | cmpCount, [] =>
    if fetchCountAt maxFetchAncestry cmpCount = 0 then (.error .maxForkAncestor, [])
    else (.error .cancelled, [(localTopAt top cmpCount, fetchCountAt maxFetchAncestry cmpCount)])
  | cmpCount, resp :: rest =>
    if fetchCountAt maxFetchAncestry cmpCount = 0 then (.error .maxForkAncestor, [])
    else
      match resp with
      | .error e => (.error e, [(localTopAt top cmpCount, fetchCountAt maxFetchAncestry cmpCount)])
      | .ok headers =>
        if headers.length = 0 then
          (.error .invalidAncestor,
           [(localTopAt top cmpCount, fetchCountAt maxFetchAncestry cmpCount)])
        else
          match findAncestorInBatch gbh headers with
          | some r => (r, [(localTopAt top cmpCount, fetchCountAt maxFetchAncestry cmpCount)])
          | none =>
            let rec' := ancestorLoop gbh top maxFetchAncestry (cmpCount + headers.length) rest
            (rec'.1, (localTopAt top cmpCount, fetchCountAt maxFetchAncestry cmpCount) :: rec'.2)

/-- `findCommonAncestorHeight` (lines 182–248): `top` is the smaller of the
local height and the peer height; `top = 0` returns immediately;
`maxFetchAncestry` caps the walk at `MaxForkAncestry` or `top + 1`. -/
def findCommonAncestorHeight (localHeight : Nat) (gbh : Nat → Except DlErr Hash)
    (height : Nat) (responses : List (Except DlErr (List Header))) :
    Except DlErr Nat × List (Nat × Int) :=
  let top := if localHeight ≤ height then localHeight else height
  if top = 0 then (.ok top, [])
  else
    let maxFetchAncestry := if MaxForkAncestry ≤ top then MaxForkAncestry else top + 1
    ancestorLoop gbh top maxFetchAncestry 0 responses

/-! ## Worker spawning and session body (`doSynchronise`)

The fetch-height and ancestor-discovery phases are abstracted into their
outcomes, the peer map iterated at the `statusFetching` transition into a
snapshot list of `(peerID, total difficulty)` pairs, and
`tm.isDone()` evaluated after `tm.close()` into a Boolean. -/

/-- The worker-spawn loop at the `statusFetching` transition (lines
134–142): one `peerDownload` goroutine per peer not skipped by
`localTD.Cmp(peerTD) >= 0`. -/
def spawnWorkers (peers : List (String × Int)) (localTD : Int) : List String :=
  (peers.filter fun c => decide (localTD < c.2)).map Prod.fst

/-- Outcome of one `doSynchronise` run: the returned error (if any), the
events fired on the event bus in order, and the workers spawned at the
`statusFetching` transition. -/
structure DoSyncResult where
  res : Except DlErr Unit
  events : List DlEvent
  workers : List String
  deriving Repr

/-- `doSynchronise` (lines 109–158): fire `DownloaderStartEvent`; on any
error path the deferred handler fires `DownloaderFailedEvent`, on the nil
path `DownloaderDoneEvent`; after the fetch phase, return nil iff
`tm.isDone()`, else `errSyncErr`. -/
def doSynchronise (fetchRes : Except DlErr Nat) (anc : Nat → Except DlErr Nat)
    (peers : List (String × Int)) (localTD : Int) (isDoneAfterClose : Bool) : DoSyncResult :=
  match fetchRes with
  | .error e => ⟨.error e, [.downloaderStart, .downloaderFailed], []⟩
  | .ok height =>
    match anc height with
    | .error e => ⟨.error e, [.downloaderStart, .downloaderFailed], []⟩
    | .ok _ancestor =>
      let workers := spawnWorkers peers localTD
      if isDoneAfterClose then ⟨.ok (), [.downloaderStart, .downloaderDone], workers⟩
      else ⟨.error .syncErr, [.downloaderStart, .downloaderFailed], workers⟩

/-! ## `Synchronise` and `RegisterPeer` -/

/-- The downloader fields `Synchronise` manipulates. -/
structure DlState where
  syncStatus : Nat
  cancelCh : CancelCh
  masterPeer : String
  peers : PeerTable

/-- `Synchronise` (lines 81–107): reject with `errIsSynchronising` while a
session is active; enter `statusPreparing`, create the cancel channel, set
the master; reject with `errPeerNotFound` (closing the channel and
restoring `statusNone`) when the master is not in the table; otherwise run
`doSynchronise` and on return drop back to `statusNone` with a nil cancel
channel. -/
def Synchronise (s : DlState) (id : String) (fetchRes : Except DlErr Nat)
    (anc : Nat → Except DlErr Nat) (peersSnapshot : List (String × Int)) (localTD : Int)
    (isDoneAfterClose : Bool) : Except DlErr Unit × DlState × List DlEvent :=
  if s.syncStatus ≠ statusNone then (.error .isSynchronising, s, [])
  else
    let s1 : DlState :=
      { s with syncStatus := statusPreparing, cancelCh := some true, masterPeer := id }
    match s1.peers id with
    | none =>
      (.error .peerNotFound,
       { s1 with cancelCh := some false, syncStatus := statusNone }, [])
    | some _ =>
      let r := doSynchronise fetchRes anc peersSnapshot localTD isDoneAfterClose
      (r.res, { s1 with syncStatus := statusNone, cancelCh := none }, r.events)

/-- Outcome of `RegisterPeer`: the updated table and whether a
`peerDownload` goroutine was spawned. -/
structure RegisterResult where
  table : PeerTable
  spawned : Bool

/-- `RegisterPeer` (lines 251–261): insert the connection into the table;
spawn a worker exactly when `d.syncStatus == statusFetching`, with no other
condition on the peer. -/
def registerPeer (tbl : PeerTable) (syncStatus : Nat) (peerID : String) (p : PeerC) :
    RegisterResult :=
  { table := registerPeerTable tbl peerID p
    spawned := decide (syncStatus = statusFetching) }

/-! ## Peer worker (`peerDownload`)

Each outer-loop iteration of the worker reads its environment: whether the
task manager is done, the header request granted by `getReqHeaderInfo`, the
block request granted by `getReqBlocks`, the message outcomes, and how the
idle `select` resolves.  A trace is a list of such iteration inputs; a
trace that ends before the loop exits models a still-running worker. -/

/-- Environment of the header phase of one iteration (lines 315–337):
`task = (startNo, amount)` from `getReqHeaderInfo`; the phase runs only
when `amount > 0`. -/
structure HeaderPhase where
  task : Nat × Nat
  reqErr : Bool
  wait : Except DlErr (List Header)
  deliverErr : Bool

/-- Environment of the block phase of one iteration (lines 339–372):
`task = (startNo, amount)` from `getReqBlocks`. -/
structure BlockPhase where
  task : Nat × Nat
  reqErr : Bool
  preWait : Except DlErr (List Nat)
  blocksWait : Except DlErr (List Nat)

/-- How the idle `select` (lines 377–388) resolves. -/
inductive IdleOutcome where
  | cancelled
  | peerQuit
  | timeout
  deriving DecidableEq, Repr

/-- Environment of one outer-loop iteration. -/
structure IterInput where
  tmDone : Bool
  header : HeaderPhase
  blocks : BlockPhase
  idle : IdleOutcome

/-- Why the worker loop exited. -/
inductive ExitReason where
  | tmDone
  | headerReqErr
  | headerWaitErr
  | headerDeliverErr
  | blockReqErr
  | blockPreWaitErr
  | blockWaitErr
  | cancelled
  | peerQuit
  deriving DecidableEq, Repr

/-- Header phase of one iteration: `(break reason, hasReqData)`. -/
def headerPhaseRun (hp : HeaderPhase) : Option ExitReason × Bool :=
  if 0 < hp.task.2 then
    if hp.reqErr then (some .headerReqErr, true)
    else
      match hp.wait with
      | .error _ => (some .headerWaitErr, true)
      | .ok _ => if hp.deliverErr then (some .headerDeliverErr, true) else (none, true)
  else (none, false)

/-- Block phase of one iteration: `(break reason, hasReqData)`. -/
def blockPhaseRun (bp : BlockPhase) : Option ExitReason × Bool :=
  if 0 < bp.task.2 then
    if bp.reqErr then (some .blockReqErr, true)
    else
      match bp.preWait with
      | .error _ => (some .blockPreWaitErr, true)
      | .ok _ =>
        match bp.blocksWait with
        | .error _ => (some .blockWaitErr, true)
        | .ok _ => (none, true)
  else (none, false)

/-- The worker's outer loop (lines 312–389) over a trace of iteration
inputs; `none` when the trace ends with the loop still running. -/
def runLoop : List IterInput → Option ExitReason
  | [] => none
  | it :: rest =>
    if it.tmDone then some .tmDone
    else
      match headerPhaseRun it.header with
      | (some r, _) => some r
      | (none, hasH) =>
        match blockPhaseRun it.blocks with
        | (some r, _) => some r
        | (none, hasB) =>
          if hasH || hasB then runLoop rest
          else
            match it.idle with
            | .cancelled => some .cancelled
            | .peerQuit => some .peerQuit
            | .timeout => runLoop rest

/-- What the worker postlude (lines 391–394) did: `tm.onPeerQuit(peerID)`
always, then `d.Cancel()` exactly for the master. -/
structure WorkerExit where
  exitReason : ExitReason
  onPeerQuitCalled : Bool
  cancelAfter : CancelCh
  deriving DecidableEq, Repr

/-- `peerDownload` (lines 306–396) as observed through the cancellation
channel: when the loop exits for any reason, call `tm.onPeerQuit` and, if
this worker serves the master peer, `d.Cancel()`. -/
def peerDownload (bMaster : Bool) (cancelCh : CancelCh) (trace : List IterInput) :
    Option WorkerExit :=
  match runLoop trace with
  | none => none
  | some r =>
    some { exitReason := r
           onPeerQuitCalled := true
           cancelAfter := if bMaster then cancelOp cancelCh else cancelCh }

/-! ## Lemmas about ancestor discovery -/

theorem fetchCountAt_eq_zero_iff (mfa cmp : Nat) : fetchCountAt mfa cmp = 0 ↔ mfa = cmp := by
  unfold fetchCountAt MaxHeaderFetch
  split <;> omega

theorem fetchCountAt_le (mfa cmp : Nat) : fetchCountAt mfa cmp ≤ (MaxHeaderFetch : Int) := by
  unfold fetchCountAt
  split <;> omega

theorem localTopAt_zero (top : Nat) (h : top < 2 ^ 64) : localTopAt top 0 = top := by
  unfold localTopAt
  omega

/-- The two `if` chains of lines 186–203 compute the minima the spec names. -/
theorem findCommonAncestorHeight_eq (localHeight height : Nat) (gbh : Nat → Except DlErr Hash)
    (rs : List (Except DlErr (List Header))) :
    findCommonAncestorHeight localHeight gbh height rs =
      if min localHeight height = 0 then (.ok 0, [])
      else
        ancestorLoop gbh (min localHeight height)
          (min MaxForkAncestry (min localHeight height + 1)) 0 rs := by
  have htop : (if localHeight ≤ height then localHeight else height) = min localHeight height := by
    split <;> omega
  have hmfa : (if MaxForkAncestry ≤ min localHeight height then MaxForkAncestry
      else min localHeight height + 1) = min MaxForkAncestry (min localHeight height + 1) := by
    split <;> omega
  unfold findCommonAncestorHeight
  simp only [htop]
  split_ifs with h0 h1
  · rw [h0]
  · have hx : MaxForkAncestry = MaxForkAncestry ⊓ (localHeight ⊓ height + 1) := by omega
    rw [← hx]
  · have hx : localHeight ⊓ height + 1 = MaxForkAncestry ⊓ (localHeight ⊓ height + 1) := by omega
    rw [← hx]

theorem findAncestorInBatch_nil (gbh : Nat → Except DlErr Hash) :
    findAncestorInBatch gbh [] = none := rfl

/-- A successful inner scan returns the first height in the batch whose
locally stored hash equals the header's hash, with every earlier header
looked up successfully and found different. -/
theorem findAncestorInBatch_ok (gbh : Nat → Except DlErr Hash) :
    ∀ (bs : List Header) (a : Nat), findAncestorInBatch gbh bs = some (.ok a) →
      ∃ (k : Nat) (hk : Header), bs[k]? = some hk ∧ hk.height = a ∧
        gbh hk.height = .ok hk.hash ∧
        ∀ (j : Nat) (hj : Header), j < k → bs[j]? = some hj →
          ∃ lh, gbh hj.height = .ok lh ∧ lh ≠ hj.hash := by
  intro bs
  induction bs with
  | nil => intro a h; simp [findAncestorInBatch] at h
  | cons hd tl ih =>
    intro a h
    simp only [findAncestorInBatch] at h
    cases hgbh : gbh hd.height with
    | error e => rw [hgbh] at h; simp at h
    | ok lh =>
      rw [hgbh] at h
      simp only [] at h
      by_cases heq : lh = hd.hash
      · rw [if_pos heq] at h
        simp only [Option.some.injEq, Except.ok.injEq] at h
        refine ⟨0, hd, by simp, h, by rw [heq] at hgbh; exact hgbh, ?_⟩
        intro j hj hjk
        exact absurd hjk (Nat.not_lt_zero j)
      · rw [if_neg heq] at h
        obtain ⟨k, hk, hget, hh, hmatch, hearlier⟩ := ih a h
        refine ⟨k + 1, hk, by simpa using hget, hh, hmatch, ?_⟩
        intro j hj hjk hget'
        cases j with
        | zero =>
          simp at hget'
          subst hget'
          exact ⟨lh, hgbh, heq⟩
        | succ j' =>
          simp at hget'
          exact hearlier j' hj (by omega) hget'

/-- A failing inner scan surfaces a store lookup error on some header of
the batch. -/
theorem findAncestorInBatch_error (gbh : Nat → Except DlErr Hash) :
    ∀ (bs : List Header) (e : DlErr), findAncestorInBatch gbh bs = some (.error e) →
      ∃ h ∈ bs, gbh h.height = .error e := by
  intro bs
  induction bs with
  | nil => intro e h; simp [findAncestorInBatch] at h
  | cons hd tl ih =>
    intro e h
    simp only [findAncestorInBatch] at h
    cases hgbh : gbh hd.height with
    | error e' =>
      rw [hgbh] at h
      simp at h
      exact ⟨hd, by simp, by rw [hgbh, h]⟩
    | ok lh =>
      rw [hgbh] at h
      simp only [] at h
      by_cases heq : lh = hd.hash
      · rw [if_pos heq] at h; simp at h
      · rw [if_neg heq] at h
        obtain ⟨hh, hmem, herr⟩ := ih e h
        exact ⟨hh, by simp [hmem], herr⟩

/-- A successful walk result comes from the first consumed batch whose scan
succeeds; every earlier consumed batch was decoded fine and scanned without
a verdict. -/
theorem ancestorLoop_ok (gbh : Nat → Except DlErr Hash) (top mfa : Nat) :
    ∀ (rs : List (Except DlErr (List Header))) (cmp a : Nat),
      (ancestorLoop gbh top mfa cmp rs).1 = .ok a →
      ∃ (i : Nat) (bs : List Header), rs[i]? = some (.ok bs) ∧
        findAncestorInBatch gbh bs = some (.ok a) ∧
        ∀ j : Nat, j < i → ∃ bs' : List Header, rs[j]? = some (.ok bs') ∧
          findAncestorInBatch gbh bs' = none := by
  intro rs
  induction rs with
  | nil =>
    intro cmp a h
    simp only [ancestorLoop] at h
    split at h <;> simp at h
  | cons resp rest ih =>
    intro cmp a h
    simp only [ancestorLoop] at h
    split at h
    · simp at h
    · cases resp with
      | error e => simp at h
      | ok headers =>
        simp only [] at h
        split at h
        · simp at h
        · cases hfa : findAncestorInBatch gbh headers with
          | some r =>
            rw [hfa] at h
            simp only [] at h
            refine ⟨0, headers, by simp, ?_, ?_⟩
            · rw [hfa, h]
            · intro j hj
              exact absurd hj (Nat.not_lt_zero j)
          | none =>
            rw [hfa] at h
            simp only [] at h
            obtain ⟨i, bs, hget, hfab, hearlier⟩ := ih (cmp + headers.length) a h
            refine ⟨i + 1, bs, by simpa using hget, hfab, ?_⟩
            intro j hj
            cases j with
            | zero => exact ⟨headers, by simp, hfa⟩
            | succ j' =>
              obtain ⟨bs', hget', hfab'⟩ := hearlier j' (by omega)
              exact ⟨bs', by simpa using hget', hfab'⟩

/-- Every failure of the walk is the empty-batch rejection, the
exhaustion-of-`maxFetchAncestry` rejection, a cancellation while waiting, a
transport/deserialization error from a response, or a store lookup error. -/
theorem ancestorLoop_error (gbh : Nat → Except DlErr Hash) (top mfa : Nat) :
    ∀ (rs : List (Except DlErr (List Header))) (cmp : Nat) (e : DlErr),
      (ancestorLoop gbh top mfa cmp rs).1 = .error e →
      e = .invalidAncestor ∨ e = .maxForkAncestor ∨ e = .cancelled ∨
        (.error e : Except DlErr (List Header)) ∈ rs ∨ ∃ n, gbh n = .error e := by
  intro rs
  induction rs with
  | nil =>
    intro cmp e h
    simp only [ancestorLoop] at h
    split at h
    · simp at h; tauto
    · simp at h; tauto
  | cons resp rest ih =>
    intro cmp e h
    simp only [ancestorLoop] at h
    split at h
    · simp at h; tauto
    · cases resp with
      | error e' =>
        simp only [] at h
        simp at h
        subst h
        exact Or.inr (Or.inr (Or.inr (Or.inl (by simp))))
      | ok headers =>
        simp only [] at h
        split at h
        · simp at h; tauto
        · cases hfa : findAncestorInBatch gbh headers with
          | some r =>
            rw [hfa] at h
            simp only [] at h
            subst h
            obtain ⟨hh, _hmem, herr⟩ := findAncestorInBatch_error gbh headers e hfa
            exact Or.inr (Or.inr (Or.inr (Or.inr ⟨hh.height, herr⟩)))
          | none =>
            rw [hfa] at h
            simp only [] at h
            rcases ih (cmp + headers.length) e h with h1 | h2 | h3 | h4 | h5
            · tauto
            · tauto
            · tauto
            · exact Or.inr (Or.inr (Or.inr (Or.inl (by simp [h4]))))
            · tauto

/-- Every reverse header request issued by the walk asks for at most
`MaxHeaderFetch` headers. -/
theorem ancestorLoop_requests (gbh : Nat → Except DlErr Hash) (top mfa : Nat) :
    ∀ (rs : List (Except DlErr (List Header))) (cmp : Nat),
      ∀ rq ∈ (ancestorLoop gbh top mfa cmp rs).2, rq.2 ≤ (MaxHeaderFetch : Int) := by
  intro rs
  induction rs with
  | nil =>
    intro cmp rq hrq
    simp only [ancestorLoop] at hrq
    split at hrq
    · simp at hrq
    · simp at hrq
      subst hrq
      exact fetchCountAt_le mfa cmp
  | cons resp rest ih =>
    intro cmp rq hrq
    simp only [ancestorLoop] at hrq
    split at hrq
    · simp at hrq
    · cases resp with
      | error e =>
        simp at hrq
        subst hrq
        exact fetchCountAt_le mfa cmp
      | ok headers =>
        simp only [] at hrq
        split at hrq
        · simp at hrq
          subst hrq
          exact fetchCountAt_le mfa cmp
        · cases hfa : findAncestorInBatch gbh headers with
          | some r =>
            rw [hfa] at hrq
            simp at hrq
            subst hrq
            exact fetchCountAt_le mfa cmp
          | none =>
            rw [hfa] at hrq
            simp only [] at hrq
            simp at hrq
            rcases hrq with hrq | hrq
            · subst hrq
              exact fetchCountAt_le mfa cmp
            · exact ih (cmp + headers.length) rq hrq

/-- When the cap is positive, the first request of the walk starts at
`localTop = top` (modulo the `uint64` representation) and asks for
`fetchCountAt mfa 0` headers. -/
theorem ancestorLoop_head (gbh : Nat → Except DlErr Hash) (top mfa : Nat)
    (rs : List (Except DlErr (List Header))) (h : mfa ≠ 0) :
    (ancestorLoop gbh top mfa 0 rs).2.head? =
      some (localTopAt top 0, fetchCountAt mfa 0) := by
  have hfc : fetchCountAt mfa 0 ≠ 0 := by
    rw [Ne, fetchCountAt_eq_zero_iff]
    omega
  cases rs with
  | nil => simp [ancestorLoop, hfc]
  | cons resp rest =>
    simp only [ancestorLoop]
    rw [if_neg hfc]
    cases resp with
    | error e => simp
    | ok headers =>
      by_cases hl : headers.length = 0
      · simp [hl]
      · cases hfa : findAncestorInBatch gbh headers <;> simp [hl, hfa]

/-! ## Claim theorems: ancestor discovery -/

/-- C3: Ancestor discovery computes `top = min(localHeight, H)`; if
`top = 0` it returns ancestor `0` immediately without any peer request;
otherwise it sets `maxFetchAncestry = min(MaxForkAncestry, top + 1)` and
walks downward from `top` in batches of at most `MaxHeaderFetch`
reverse-ordered headers, returning the first height at which the locally
stored block hash equals the returned header's hash. -/
theorem claimC3_findCommonAncestorHeight (localHeight height : Nat)
    (gbh : Nat → Except DlErr Hash) (rs : List (Except DlErr (List Header))) :
    (min localHeight height = 0 →
       findCommonAncestorHeight localHeight gbh height rs = (.ok 0, [])) ∧
    (min localHeight height ≠ 0 →
       findCommonAncestorHeight localHeight gbh height rs =
         ancestorLoop gbh (min localHeight height)
           (min MaxForkAncestry (min localHeight height + 1)) 0 rs) ∧
    (∀ rq ∈ (findCommonAncestorHeight localHeight gbh height rs).2,
       rq.2 ≤ (MaxHeaderFetch : Int)) ∧
    (min localHeight height ≠ 0 → min localHeight height < 2 ^ 64 →
       (findCommonAncestorHeight localHeight gbh height rs).2.head? =
         some (min localHeight height,
           fetchCountAt (min MaxForkAncestry (min localHeight height + 1)) 0)) ∧
    (∀ a : Nat, (findCommonAncestorHeight localHeight gbh height rs).1 = .ok a →
       (min localHeight height = 0 ∧ a = 0) ∨
       ∃ (i : Nat) (bs : List Header), rs[i]? = some (.ok bs) ∧
         (∃ (k : Nat) (hk : Header), bs[k]? = some hk ∧ hk.height = a ∧
            gbh hk.height = .ok hk.hash ∧
            ∀ (j : Nat) (hj : Header), j < k → bs[j]? = some hj →
              ∃ lh, gbh hj.height = .ok lh ∧ lh ≠ hj.hash) ∧
         ∀ j : Nat, j < i → ∃ bs' : List Header, rs[j]? = some (.ok bs') ∧
           findAncestorInBatch gbh bs' = none) := by
  refine ⟨?_, ?_, ?_, ?_, ?_⟩
  · intro h0
    rw [findCommonAncestorHeight_eq, if_pos h0]
  · intro h0
    rw [findCommonAncestorHeight_eq, if_neg h0]
  · intro rq hrq
    rw [findCommonAncestorHeight_eq] at hrq
    by_cases h0 : min localHeight height = 0
    · rw [if_pos h0] at hrq
      simp at hrq
    · rw [if_neg h0] at hrq
      exact ancestorLoop_requests gbh _ _ rs 0 rq hrq
  · intro h0 hlt
    rw [findCommonAncestorHeight_eq, if_neg h0]
    rw [ancestorLoop_head]
    · rw [localTopAt_zero _ hlt]
    · have h90 : MaxForkAncestry = 90000 := rfl
      omega
  · intro a ha
    rw [findCommonAncestorHeight_eq] at ha
    by_cases h0 : min localHeight height = 0
    · rw [if_pos h0] at ha
      simp at ha
      exact Or.inl ⟨h0, ha.symm⟩
    · rw [if_neg h0] at ha
      obtain ⟨i, bs, hget, hfab, hearlier⟩ := ancestorLoop_ok gbh _ _ rs 0 a ha
      exact Or.inr ⟨i, bs, hget, findAncestorInBatch_ok gbh bs a hfab, hearlier⟩

/-- Witness for C3: the zero-top shortcut, the walk equation, the request
bound and the first-match characterization at concrete inputs. -/
theorem claimC3_witness :
    (min 0 5 = 0 ∧ findCommonAncestorHeight 0 (fun _ => .ok 0) 5 [] = (.ok 0, [])) ∧
    ((2 : Nat), (3 : Int)) ∈
        (findCommonAncestorHeight 2 (fun n => .ok n) 5
          [.ok [Header.mk 2 99, Header.mk 1 1]]).2 ∧
    ((2 : Nat), (3 : Int)).2 ≤ (MaxHeaderFetch : Int) ∧
    (findCommonAncestorHeight 2 (fun n => .ok n) 5
        [.ok [Header.mk 2 99, Header.mk 1 1]]).2.head? =
      some (min 2 5, fetchCountAt (min MaxForkAncestry (min 2 5 + 1)) 0) ∧
    ((min 2 5 = 0 ∧ 1 = 0) ∨
      ∃ (i : Nat) (bs : List Header),
        ([.ok [Header.mk 2 99, Header.mk 1 1]] :
            List (Except DlErr (List Header)))[i]? = some (.ok bs) ∧
        (∃ (k : Nat) (hk : Header), bs[k]? = some hk ∧ hk.height = 1 ∧
           (fun n => (.ok n : Except DlErr Hash)) hk.height = .ok hk.hash ∧
           ∀ (j : Nat) (hj : Header), j < k → bs[j]? = some hj →
             ∃ lh, (fun n => (.ok n : Except DlErr Hash)) hj.height = .ok lh ∧
               lh ≠ hj.hash) ∧
        ∀ j : Nat, j < i →
          ∃ bs' : List Header,
            ([.ok [Header.mk 2 99, Header.mk 1 1]] :
                List (Except DlErr (List Header)))[j]? = some (.ok bs') ∧
            findAncestorInBatch (fun n => .ok n) bs' = none) :=
  ⟨⟨by decide,
    (claimC3_findCommonAncestorHeight 0 5 (fun _ => .ok 0) []).1 (by decide)⟩,
   by decide,
   (claimC3_findCommonAncestorHeight 2 5 (fun n => .ok n)
      [.ok [Header.mk 2 99, Header.mk 1 1]]).2.2.1 ((2 : Nat), (3 : Int)) (by decide),
   (claimC3_findCommonAncestorHeight 2 5 (fun n => .ok n)
      [.ok [Header.mk 2 99, Header.mk 1 1]]).2.2.2.1 (by decide) (by decide),
   (claimC3_findCommonAncestorHeight 2 5 (fun n => .ok n)
      [.ok [Header.mk 2 99, Header.mk 1 1]]).2.2.2.2 1 (by decide)⟩

/-- C4 counterexample: the walk can also fail with a local store lookup
error, which is neither `InvalidAncestor`, `ForkTooDeep`, a cancellation,
nor an error carried by any response. -/
theorem claimC4_cex :
    (findCommonAncestorHeight 2 (fun _ => .error (.storeErr 7)) 5
        [.ok [Header.mk 2 99]]).1 = .error (.storeErr 7) ∧
    DlErr.storeErr 7 ≠ DlErr.invalidAncestor ∧
    DlErr.storeErr 7 ≠ DlErr.maxForkAncestor ∧
    DlErr.storeErr 7 ≠ DlErr.cancelled ∧
    (Except.error (DlErr.storeErr 7) : Except DlErr (List Header)) ∉
      ([.ok [Header.mk 2 99]] : List (Except DlErr (List Header))) := by
  decide

/-- C4 (amended): during the ancestor walk a zero-header batch fails with
`InvalidAncestor`, consuming `maxFetchAncestry` headers without a match
fails with `ForkTooDeep`, and these are the only walk-specific failures
besides transport/deserialization errors, cancellation while waiting, and
local store lookup errors. -/
theorem claimC4_amended (gbh : Nat → Except DlErr Hash) (top mfa cmp : Nat)
    (rs rest : List (Except DlErr (List Header))) :
    (cmp ≠ mfa →
       (ancestorLoop gbh top mfa cmp (.ok [] :: rest)).1 = .error .invalidAncestor) ∧
    ancestorLoop gbh top mfa mfa rs = (.error .maxForkAncestor, []) ∧
    (∀ e : DlErr, (ancestorLoop gbh top mfa cmp rs).1 = .error e →
       e = .invalidAncestor ∨ e = .maxForkAncestor ∨ e = .cancelled ∨
         (.error e : Except DlErr (List Header)) ∈ rs ∨ ∃ n, gbh n = .error e) := by
  have hzero : fetchCountAt mfa mfa = 0 := by
    rw [fetchCountAt_eq_zero_iff]
  refine ⟨?_, ?_, ?_⟩
  · intro hne
    have hfc : fetchCountAt mfa cmp ≠ 0 := by
      rw [Ne, fetchCountAt_eq_zero_iff]
      omega
    simp [ancestorLoop, hfc]
  · cases rs with
    | nil => simp [ancestorLoop, hzero]
    | cons resp rest' => simp [ancestorLoop, hzero]
  · intro e he
    exact ancestorLoop_error gbh top mfa rs cmp e he

/-- Witness for C4 (amended): the empty-batch rejection and the error
taxonomy at concrete inputs. -/
theorem claimC4_witness :
    (0 : Nat) ≠ (3 : Nat) ∧
    (ancestorLoop (fun n => .ok n) 2 3 0
        [.ok [], .ok [Header.mk 1 1]]).1 = .error .invalidAncestor ∧
    ((ancestorLoop (fun n => .ok n) 2 3 0
        ([.error .deserializeErr] : List (Except DlErr (List Header)))).1 =
      .error .deserializeErr →
     DlErr.deserializeErr = .invalidAncestor ∨ DlErr.deserializeErr = .maxForkAncestor ∨
       DlErr.deserializeErr = .cancelled ∨
       (.error .deserializeErr : Except DlErr (List Header)) ∈
         ([.error .deserializeErr] : List (Except DlErr (List Header))) ∨
       ∃ n, (fun n => (.ok n : Except DlErr Hash)) n = .error .deserializeErr) :=
  ⟨by decide,
   (claimC4_amended (fun n => .ok n) 2 3 0 [] [.ok [Header.mk 1 1]]).1 (by decide),
   (claimC4_amended (fun n => .ok n) 2 3 0
      ([.error .deserializeErr] : List (Except DlErr (List Header))) []).2.2
     .deserializeErr⟩

/-- C10: during the ancestor walk, a returned header whose height has no
locally stored block hash (the store lookup fails) is not skipped: the
batch scan aborts with the store's error and the whole walk returns it. -/
theorem claimC10_store_error_aborts :
    (∀ (gbh : Nat → Except DlErr Hash) (hd : Header) (hs : List Header) (e : DlErr),
       gbh hd.height = .error e →
       findAncestorInBatch gbh (hd :: hs) = some (.error e)) ∧
    (∀ (gbh : Nat → Except DlErr Hash) (top mfa cmp : Nat) (bs : List Header)
       (r : Except DlErr Nat) (rest : List (Except DlErr (List Header))),
       cmp ≠ mfa → findAncestorInBatch gbh bs = some r →
       (ancestorLoop gbh top mfa cmp (.ok bs :: rest)).1 = r) ∧
    (∀ (localHeight height : Nat) (gbh : Nat → Except DlErr Hash) (hd : Header)
       (hs : List Header) (rest : List (Except DlErr (List Header))) (e : DlErr),
       min localHeight height ≠ 0 → gbh hd.height = .error e →
       (findCommonAncestorHeight localHeight gbh height (.ok (hd :: hs) :: rest)).1 =
         .error e) := by
  have hbatch : ∀ (gbh : Nat → Except DlErr Hash) (hd : Header) (hs : List Header)
      (e : DlErr), gbh hd.height = .error e →
      findAncestorInBatch gbh (hd :: hs) = some (.error e) := by
    intro gbh hd hs e hgbh
    simp [findAncestorInBatch, hgbh]
  have hloop : ∀ (gbh : Nat → Except DlErr Hash) (top mfa cmp : Nat) (bs : List Header)
      (r : Except DlErr Nat) (rest : List (Except DlErr (List Header))),
      cmp ≠ mfa → findAncestorInBatch gbh bs = some r →
      (ancestorLoop gbh top mfa cmp (.ok bs :: rest)).1 = r := by
    intro gbh top mfa cmp bs r rest hne hfab
    have hfc : fetchCountAt mfa cmp ≠ 0 := by
      rw [Ne, fetchCountAt_eq_zero_iff]
      omega
    have hlen : bs.length ≠ 0 := by
      intro h0
      rw [List.length_eq_zero] at h0
      subst h0
      simp [findAncestorInBatch] at hfab
    simp [ancestorLoop, hfc, hlen, hfab]
  refine ⟨hbatch, hloop, ?_⟩
  intro localHeight height gbh hd hs rest e h0 hgbh
  rw [findCommonAncestorHeight_eq, if_neg h0]
  refine hloop gbh _ _ 0 (hd :: hs) (.error e) rest ?_ (hbatch gbh hd hs e hgbh)
  have h90 : MaxForkAncestry = 90000 := rfl
  omega

/-- Witness for C10: a walk over a batch whose first header's height has no
stored hash aborts with the store error. -/
theorem claimC10_witness :
    min 4 9 ≠ 0 ∧
    (fun _ => (.error (.storeErr 3) : Except DlErr Hash)) (Header.mk 4 50).height =
      .error (.storeErr 3) ∧
    (findCommonAncestorHeight 4 (fun _ => .error (.storeErr 3)) 9
        [.ok [Header.mk 4 50, Header.mk 3 40]]).1 = .error (.storeErr 3) :=
  ⟨by decide, by decide,
   claimC10_store_error_aborts.2.2 4 9 (fun _ => .error (.storeErr 3))
     (Header.mk 4 50) [Header.mk 3 40] [] (.storeErr 3) (by decide) (by decide)⟩

/-! ## Claim theorems: session body and entry point -/

/-- C1: for every completed session (the fetch-height and
ancestor-discovery phases succeeded), `doSynchronise` returns ok exactly
when the Task Manager's `isDone()` holds after `tm.close()`, and
`errSyncErr` (`SyncAborted`) otherwise; it fires `DownloaderDoneEvent` on
the ok outcome and `DownloaderFailedEvent` on every error outcome. -/
theorem claimC1_doSynchronise (fetchRes : Except DlErr Nat)
    (anc : Nat → Except DlErr Nat) (peers : List (String × Int)) (localTD : Int)
    (isDone : Bool) :
    (∀ (h a : Nat), fetchRes = .ok h → anc h = .ok a →
       ((doSynchronise fetchRes anc peers localTD isDone).res = .ok () ↔
          isDone = true) ∧
       (isDone = false →
          (doSynchronise fetchRes anc peers localTD isDone).res = .error .syncErr)) ∧
    ((doSynchronise fetchRes anc peers localTD isDone).res = .ok () →
       (doSynchronise fetchRes anc peers localTD isDone).events =
         [.downloaderStart, .downloaderDone]) ∧
    (∀ e : DlErr, (doSynchronise fetchRes anc peers localTD isDone).res = .error e →
       (doSynchronise fetchRes anc peers localTD isDone).events =
         [.downloaderStart, .downloaderFailed]) := by
  refine ⟨?_, ?_, ?_⟩
  · intro h a hf ha
    subst hf
    cases isDone <;> simp [doSynchronise, ha]
  · intro hres
    cases fetchRes with
    | error e => simp [doSynchronise] at hres
    | ok h =>
      cases hanc : anc h with
      | error e => simp [doSynchronise, hanc] at hres
      | ok a =>
        cases isDone
        · simp [doSynchronise, hanc] at hres
        · simp [doSynchronise, hanc]
  · intro e hres
    cases fetchRes with
    | error e' => simp [doSynchronise]
    | ok h =>
      cases hanc : anc h with
      | error e' => simp [doSynchronise, hanc]
      | ok a =>
        cases isDone
        · simp [doSynchronise, hanc]
        · simp [doSynchronise, hanc] at hres

/-- Witness for C1: a done session returns ok, an aborted one returns
`errSyncErr` and fires `DownloaderFailedEvent`. -/
theorem claimC1_witness :
    (((doSynchronise (.ok 10) (fun _ => .ok 3) [("p", 5)] 0 true).res = .ok () ↔
        true = true) ∧
      (true = false →
        (doSynchronise (.ok 10) (fun _ => .ok 3) [("p", 5)] 0 true).res =
          .error .syncErr)) ∧
    (doSynchronise (.ok 10) (fun _ => .ok 3) [("p", 5)] 0 false).events =
      [.downloaderStart, .downloaderFailed] :=
  ⟨(claimC1_doSynchronise (.ok 10) (fun _ => .ok 3) [("p", 5)] 0 true).1 10 3 rfl rfl,
   (claimC1_doSynchronise (.ok 10) (fun _ => .ok 3) [("p", 5)] 0 false).2.2
     .syncErr (by decide)⟩

/-- C2 counterexample: when a session is active, `Synchronise` fails with
`errIsSynchronising` but the session state it returns with is the active
session's state, not `statusNone`. -/
theorem claimC2_cex :
    (Synchronise ⟨statusFetching, some true, "m", fun _ => none⟩ "p" (.ok 0)
        (fun _ => .ok 0) [] 0 true).1 = .error .isSynchronising ∧
    (Synchronise ⟨statusFetching, some true, "m", fun _ => none⟩ "p" (.ok 0)
        (fun _ => .ok 0) [] 0 true).2.1.syncStatus ≠ statusNone := by
  constructor
  · decide
  · decide

/-- C2 (amended): a `Synchronise` call while a session is active fails
immediately with `errIsSynchronising` and leaves the downloader state
untouched (so the session state stays whatever the active session set, not
`statusNone`); when no session is active and the master peer is missing
from the table it fails with `errPeerNotFound`, the session state is
`statusNone` on return and the cancel channel was closed. -/
theorem claimC2_amended (s : DlState) (id : String) (fetchRes : Except DlErr Nat)
    (anc : Nat → Except DlErr Nat) (ps : List (String × Int)) (localTD : Int)
    (d : Bool) :
    (s.syncStatus ≠ statusNone →
       Synchronise s id fetchRes anc ps localTD d = (.error .isSynchronising, s, [])) ∧
    (s.syncStatus = statusNone → s.peers id = none →
       (Synchronise s id fetchRes anc ps localTD d).1 = .error .peerNotFound ∧
       (Synchronise s id fetchRes anc ps localTD d).2.1.syncStatus = statusNone ∧
       (Synchronise s id fetchRes anc ps localTD d).2.1.cancelCh = some false) := by
  constructor
  · intro hne
    simp [Synchronise, hne]
  · intro heq hpeers
    simp [Synchronise, heq, hpeers]

/-- Witness for C2 (amended): both failure modes at concrete states. -/
theorem claimC2_witness :
    ((⟨statusCleaning, some true, "m", fun _ => none⟩ : DlState).syncStatus ≠
        statusNone ∧
      Synchronise ⟨statusCleaning, some true, "m", fun _ => none⟩ "q" (.ok 1)
          (fun _ => .ok 1) [] 0 false =
        (.error .isSynchronising, ⟨statusCleaning, some true, "m", fun _ => none⟩, [])) ∧
    ((Synchronise ⟨statusNone, none, "m", fun _ => none⟩ "q" (.ok 1)
        (fun _ => .ok 1) [] 0 false).1 = .error .peerNotFound ∧
      (Synchronise ⟨statusNone, none, "m", fun _ => none⟩ "q" (.ok 1)
        (fun _ => .ok 1) [] 0 false).2.1.syncStatus = statusNone ∧
      (Synchronise ⟨statusNone, none, "m", fun _ => none⟩ "q" (.ok 1)
        (fun _ => .ok 1) [] 0 false).2.1.cancelCh = some false) :=
  ⟨⟨by decide,
    (claimC2_amended ⟨statusCleaning, some true, "m", fun _ => none⟩ "q" (.ok 1)
        (fun _ => .ok 1) [] 0 false).1 (by decide)⟩,
   (claimC2_amended ⟨statusNone, none, "m", fun _ => none⟩ "q" (.ok 1)
       (fun _ => .ok 1) [] 0 false).2 (by decide) (by decide)⟩

/-- C9: when `Synchronise` fails early with `errIsSynchronising` or
`errPeerNotFound`, no session lifecycle event is fired; the events fire
exactly when control reaches `doSynchronise`, whose event list opens with
`DownloaderStartEvent`. -/
theorem claimC9_no_events_on_early_failure (s : DlState) (id : String)
    (fetchRes : Except DlErr Nat) (anc : Nat → Except DlErr Nat)
    (ps : List (String × Int)) (localTD : Int) (d : Bool) :
    (s.syncStatus ≠ statusNone →
       (Synchronise s id fetchRes anc ps localTD d).2.2 = []) ∧
    (s.peers id = none →
       (Synchronise s id fetchRes anc ps localTD d).2.2 = []) ∧
    (s.syncStatus = statusNone → ∀ p : PeerC, s.peers id = some p →
       (Synchronise s id fetchRes anc ps localTD d).2.2 =
         (doSynchronise fetchRes anc ps localTD d).events ∧
       (doSynchronise fetchRes anc ps localTD d).events.head? =
         some .downloaderStart) := by
  refine ⟨?_, ?_, ?_⟩
  · intro hne
    simp [Synchronise, hne]
  · intro hpeers
    by_cases hne : s.syncStatus = statusNone
    · simp [Synchronise, hne, hpeers]
    · simp [Synchronise, hne]
  · intro heq p hpeers
    refine ⟨by simp [Synchronise, heq, hpeers], ?_⟩
    cases fetchRes with
    | error e => simp [doSynchronise]
    | ok h =>
      cases hanc : anc h with
      | error e => simp [doSynchronise, hanc]
      | ok a => cases d <;> simp [doSynchronise, hanc]

/-- Witness for C9: no events on a Busy rejection and on a missing master;
events reach the bus once `doSynchronise` runs. -/
theorem claimC9_witness :
    (Synchronise ⟨statusPreparing, some true, "m", fun _ => none⟩ "r" (.ok 2)
        (fun _ => .ok 2) [] 0 true).2.2 = [] ∧
    (Synchronise ⟨statusNone, none, "m", fun _ => none⟩ "r" (.ok 2)
        (fun _ => .ok 2) [] 0 true).2.2 = [] ∧
    ((Synchronise ⟨statusNone, none, "m", fun k => if k = "r" then some ⟨9⟩ else none⟩
          "r" (.ok 2) (fun _ => .ok 2) [("r", 9)] 0 true).2.2 =
        (doSynchronise (.ok 2) (fun _ => .ok 2) [("r", 9)] 0 true).events ∧
      (doSynchronise (.ok 2) (fun _ => .ok 2) [("r", 9)] 0 true).events.head? =
        some .downloaderStart) :=
  ⟨(claimC9_no_events_on_early_failure ⟨statusPreparing, some true, "m", fun _ => none⟩
      "r" (.ok 2) (fun _ => .ok 2) [] 0 true).1 (by decide),
   (claimC9_no_events_on_early_failure ⟨statusNone, none, "m", fun _ => none⟩
      "r" (.ok 2) (fun _ => .ok 2) [] 0 true).2.1 rfl,
   (claimC9_no_events_on_early_failure
      ⟨statusNone, none, "m", fun k => if k = "r" then some ⟨9⟩ else none⟩
      "r" (.ok 2) (fun _ => .ok 2) [("r", 9)] 0 true).2.2 (by decide) ⟨9⟩ (by decide)⟩

/-! ## Claim theorems: workers, peer table, block writer -/

/-- C5: at the transition into `statusFetching`, exactly one worker is
spawned per registered peer whose total difficulty strictly exceeds
`localTD` — the master peer included, subject to the same check — while a
peer registered during `statusFetching` gets a worker spawned
unconditionally, with no total-difficulty check. -/
theorem claimC5_worker_spawn :
    (∀ (peers : List (String × Int)) (localTD : Int) (id : String),
       id ∈ spawnWorkers peers localTD ↔ ∃ td, (id, td) ∈ peers ∧ localTD < td) ∧
    (∀ (peers : List (String × Int)) (localTD : Int) (id : String) (td : Int),
       (peers.map Prod.fst).Nodup → (id, td) ∈ peers → localTD < td →
       (spawnWorkers peers localTD).count id = 1) ∧
    (∀ (fetchRes : Except DlErr Nat) (anc : Nat → Except DlErr Nat)
       (peers : List (String × Int)) (localTD : Int) (d : Bool) (h a : Nat),
       fetchRes = .ok h → anc h = .ok a →
       (doSynchronise fetchRes anc peers localTD d).workers =
         spawnWorkers peers localTD) ∧
    (∀ (tbl : PeerTable) (status : Nat) (id : String) (p q : PeerC),
       (registerPeer tbl status id p).spawned = (registerPeer tbl status id q).spawned) ∧
    (∀ (tbl : PeerTable) (id : String) (p : PeerC),
       (registerPeer tbl statusFetching id p).spawned = true) ∧
    (∀ (tbl : PeerTable) (status : Nat) (id : String) (p : PeerC),
       (registerPeer tbl status id p).spawned = true → status = statusFetching) := by
  have hmem : ∀ (peers : List (String × Int)) (localTD : Int) (id : String),
      id ∈ spawnWorkers peers localTD ↔ ∃ td, (id, td) ∈ peers ∧ localTD < td := by
    intro peers localTD id
    simp only [spawnWorkers, List.mem_map, List.mem_filter, decide_eq_true_eq]
    constructor
    · rintro ⟨⟨i, td⟩, ⟨hin, hlt⟩, rfl⟩
      exact ⟨td, hin, hlt⟩
    · rintro ⟨td, hin, hlt⟩
      exact ⟨(id, td), ⟨hin, hlt⟩, rfl⟩
  refine ⟨hmem, ?_, ?_, ?_, ?_, ?_⟩
  · intro peers localTD id td hnd hin hlt
    have hsub : List.Sublist (spawnWorkers peers localTD) (peers.map Prod.fst) :=
      List.Sublist.map Prod.fst (List.filter_sublist peers)
    have hnodup : (spawnWorkers peers localTD).Nodup := List.Nodup.sublist hsub hnd
    have hidmem : id ∈ spawnWorkers peers localTD :=
      (hmem peers localTD id).2 ⟨td, hin, hlt⟩
    exact List.count_eq_one_of_mem hnodup hidmem
  · intro fetchRes anc peers localTD d h a hf ha
    subst hf
    cases d <;> simp [doSynchronise, ha]
  · intro tbl status id p q
    rfl
  · intro tbl id p
    simp [registerPeer]
  · intro tbl status id p hsp
    simpa [registerPeer] using hsp

/-- Witness for C5: the spawn count and the unconditional mid-session
spawn at concrete inputs. -/
theorem claimC5_witness :
    ((["a", "b", "c"] : List String).Nodup ∧
      (spawnWorkers [("a", 5), ("b", 3), ("c", 10)] 4).count "c" = 1) ∧
    (doSynchronise (.ok 7) (fun _ => .ok 2) [("a", 5), ("b", 3)] 4 true).workers =
      spawnWorkers [("a", 5), ("b", 3)] 4 ∧
    (registerPeer (fun _ => none) statusFetching "z" ⟨(-100)⟩).spawned = true ∧
    ((registerPeer (fun _ => none) statusPreparing "z" ⟨1000⟩).spawned = true →
      statusPreparing = statusFetching) :=
  ⟨⟨by decide,
    claimC5_worker_spawn.2.1 [("a", 5), ("b", 3), ("c", 10)] 4 "c" 10 (by decide)
      (by decide) (by decide)⟩,
   claimC5_worker_spawn.2.2.1 (.ok 7) (fun _ => .ok 2) [("a", 5), ("b", 3)] 4 true
     7 2 rfl rfl,
   claimC5_worker_spawn.2.2.2.2.1 (fun _ => none) "z" ⟨(-100)⟩,
   claimC5_worker_spawn.2.2.2.2.2 (fun _ => none) statusPreparing "z" ⟨1000⟩⟩

/-- C6: whenever the worker bound to the master peer exits its loop, for
any reason, the postlude marks `tm.onPeerQuit` and closes the session's
cancellation signal (which exists while the session runs) before the worker
returns. -/
theorem claimC6_master_exit_cancels (trace : List IterInput) (c : CancelCh)
    (w : WorkerExit) (hrun : peerDownload true c trace = some w) (hc : c ≠ none) :
    w.onPeerQuitCalled = true ∧ w.cancelAfter = some false := by
  unfold peerDownload at hrun
  cases hloop : runLoop trace with
  | none =>
    rw [hloop] at hrun
    simp at hrun
  | some r =>
    rw [hloop] at hrun
    simp at hrun
    cases c with
    | none => exact absurd rfl hc
    | some b =>
      rw [← hrun]
      exact ⟨rfl, rfl⟩

/-- Witness for C6: a master worker whose loop exits because the task
manager is done ends with the cancellation channel closed. -/
theorem claimC6_witness :
    peerDownload true (some true)
        [⟨true, ⟨(0, 0), false, .ok [], false⟩, ⟨(0, 0), false, .ok [], .ok []⟩,
          .timeout⟩] =
      some ⟨.tmDone, true, some false⟩ ∧
    (some true : CancelCh) ≠ none ∧
    ((⟨.tmDone, true, some false⟩ : WorkerExit).onPeerQuitCalled = true ∧
      (⟨.tmDone, true, some false⟩ : WorkerExit).cancelAfter = some false) :=
  ⟨by decide, by decide,
   claimC6_master_exit_cancels
     [⟨true, ⟨(0, 0), false, .ok [], false⟩, ⟨(0, 0), false, .ok [], .ok []⟩,
       .timeout⟩]
     (some true) ⟨.tmDone, true, some false⟩ (by decide) (by decide)⟩

/-- C7: in `processBlocks`, an `ErrBlockAlreadyExist` write result is
non-fatal — the slot is still marked processed and the run continues —
while any other write error cancels the session and stops the run, so the
failing block is not marked processed and no later block of the run is
written or marked. -/
theorem claimC7_processBlocks (write : Nat → WriteRes) :
    (∀ (h : Nat) (rest : List Nat), write h = .alreadyExists →
       processBlocks write (h :: rest) =
         (h :: (processBlocks write rest).1,
          h :: (processBlocks write rest).2.1,
          (processBlocks write rest).2.2)) ∧
    (∀ (h : Nat) (rest : List Nat) (c : Nat), write h = .err c →
       processBlocks write (h :: rest) = ([h], [], true)) := by
  constructor
  · intro h rest hw
    simp [processBlocks, hw]
  · intro h rest c hw
    simp [processBlocks, hw]

/-- Witness for C7: a run where height 2 already exists continues to the
end, a run hitting a hard write error at height 3 cancels and stops. -/
theorem claimC7_witness :
    (fun h => if h = 3 then WriteRes.err 1 else
        if h = 2 then WriteRes.alreadyExists else WriteRes.ok) 2 =
      WriteRes.alreadyExists ∧
    (fun h => if h = 3 then WriteRes.err 1 else
        if h = 2 then WriteRes.alreadyExists else WriteRes.ok) 3 = WriteRes.err 1 ∧
    processBlocks
        (fun h => if h = 3 then WriteRes.err 1 else
          if h = 2 then WriteRes.alreadyExists else WriteRes.ok) (2 :: [1]) =
      (2 :: (processBlocks (fun h => if h = 3 then WriteRes.err 1 else
          if h = 2 then WriteRes.alreadyExists else WriteRes.ok) [1]).1,
       2 :: (processBlocks (fun h => if h = 3 then WriteRes.err 1 else
          if h = 2 then WriteRes.alreadyExists else WriteRes.ok) [1]).2.1,
       (processBlocks (fun h => if h = 3 then WriteRes.err 1 else
          if h = 2 then WriteRes.alreadyExists else WriteRes.ok) [1]).2.2) ∧
    processBlocks
        (fun h => if h = 3 then WriteRes.err 1 else
          if h = 2 then WriteRes.alreadyExists else WriteRes.ok) (3 :: [4, 5]) =
      ([3], [], true) :=
  ⟨by decide, by decide,
   (claimC7_processBlocks
      (fun h => if h = 3 then WriteRes.err 1 else
        if h = 2 then WriteRes.alreadyExists else WriteRes.ok)).1 2 [1] (by decide),
   (claimC7_processBlocks
      (fun h => if h = 3 then WriteRes.err 1 else
        if h = 2 then WriteRes.alreadyExists else WriteRes.ok)).2 3 [4, 5] 1
     (by decide)⟩

/-- C8 counterexample: on a table that already holds `"a"`, registering
`"a"` again and then unregistering it yields a table that maps `"a"` to
nothing while the original mapped it to a connection, so the pair of calls
does not leave the table as it was. -/
theorem claimC8_cex :
    unRegisterPeerTable
        (registerPeerTable (fun k => if k = "a" then some ⟨5⟩ else none) "a" ⟨7⟩)
        "a" "a" = none ∧
    (fun k => if k = "a" then some (⟨5⟩ : PeerC) else none) "a" = some ⟨5⟩ ∧
    unRegisterPeerTable
        (registerPeerTable (fun k => if k = "a" then some ⟨5⟩ else none) "a" ⟨7⟩)
        "a" ≠
      (fun k => if k = "a" then some (⟨5⟩ : PeerC) else none) := by
  refine ⟨by decide, by decide, ?_⟩
  intro hEq
  have h2 := congrFun hEq "a"
  simp [unRegisterPeerTable, registerPeerTable] at h2

/-- C8 (amended): for every peer table in which `peerId` is not yet
registered, `RegisterPeer(peerId, peer)` followed by
`UnRegisterPeer(peerId)` leaves the peer table as it was. -/
theorem claimC8_amended (tbl : PeerTable) (peerID : String) (p : PeerC)
    (h : tbl peerID = none) :
    unRegisterPeerTable (registerPeerTable tbl peerID p) peerID = tbl := by
  funext k
  have hreg : registerPeerTable tbl peerID p peerID = some p := by
    simp [registerPeerTable]
  unfold unRegisterPeerTable
  rw [hreg]
  by_cases hk : k = peerID
  · subst hk
    simp [h]
  · simp [hk, registerPeerTable]

/-- Witness for C8 (amended): on an empty table, the pair of calls is the
identity. -/
theorem claimC8_witness :
    (fun _ => none : PeerTable) "a" = none ∧
    unRegisterPeerTable (registerPeerTable (fun _ => none) "a" ⟨5⟩) "a" =
      (fun _ => none : PeerTable) :=
  ⟨rfl, claimC8_amended (fun _ => none) "a" ⟨5⟩ rfl⟩

end Downloader
